import Mathlib

/-!
Verification development for the `modyne` DynamoDB modeling layer.

Rust strings are modeled as lists of bytes (`Bytes := List UInt8`), matching
the byte-oriented operations the source performs on `&str`/`String` values
(`String::replace` of an ASCII character, `str::trim_start_matches`,
`str::bytes`, `str::len`, `make_ascii_uppercase`).  `aws_sdk_dynamodb`'s
`AttributeValue` (an external collaborator's type) is modeled by a small
inductive `AttrVal`; DynamoDB items (`HashMap<String, AttributeValue>`) are
modeled as association lists with insert-replaces-existing-key semantics,
matching `HashMap::insert`/`extend`/`collect`.
-/

set_option maxRecDepth 1000000

/-- Model of Rust byte strings (`&str` / `String` as UTF-8 byte sequences). -/
abbrev Bytes := List UInt8

/-- Encode an ASCII-only Lean string literal as bytes, for writing concrete
inputs and expected outputs. -/
def asciiBytes (s : String) : Bytes := s.data.map (fun c => UInt8.ofNat c.toNat)

/-- Model of `aws_sdk_dynamodb::types::AttributeValue` (external collaborator):
only the shapes the verified code inspects are distinguished. `s` is the
string variant (`AttributeValue::S`), `n` the number variant, and the rest
stand in for the non-string variants. -/
inductive AttrVal where
  | s (v : Bytes)
  | n (v : Bytes)
  | bool (b : Bool)
  | null
deriving DecidableEq, Repr

/-- A DynamoDB item: `HashMap<String, AttributeValue>` modeled as an
association list without duplicate keys (maintained by `assocInsert`). -/
abbrev Item := List (Bytes × AttrVal)

/-- Rust `HashMap::insert`: replace the value of an existing key in place, or
append the new binding. -/
def assocInsert {β : Type} : List (Bytes × β) → Bytes → β → List (Bytes × β)
  | [], k, v => [(k, v)]
  | (k', v') :: rest, k, v =>
    if k' = k then (k, v) :: rest else (k', v') :: assocInsert rest k v

/-- Rust `HashMap::extend` / `FromIterator` collection over a starting map. -/
def assocInsertAll {β : Type} (m : List (Bytes × β)) (entries : List (Bytes × β)) :
    List (Bytes × β) :=
  entries.foldl (fun acc p => assocInsert acc p.1 p.2) m

/-- Rust `iter().collect::<HashMap<_, _>>()` on a list of pairs. -/
def collectMap {β : Type} (entries : List (Bytes × β)) : List (Bytes × β) :=
  assocInsertAll [] entries

/-- Rust `HashMap::get` on the association-list model. -/
def assocGet {β : Type} (m : List (Bytes × β)) (k : Bytes) : Option β :=
  (m.find? (fun p => p.1 == k)).map (·.2)

/-- Rust `str::replace(char, &str)` at byte level: every occurrence of byte `b`
is replaced by `r`. The replaced characters (`'#'`, `':'`) are ASCII, so a
byte-level replacement agrees with Rust's character-level one on UTF-8. -/
def replaceByte (b : UInt8) (r : Bytes) : Bytes → Bytes
  | [] => []
  | c :: rest => if c = b then r ++ replaceByte b r rest else c :: replaceByte b r rest

section Fragments
/-!
`src/expr.rs`: the `Filter`, `Update` and `Condition` expression fragments.
The three Rust structs have identical fields and field-for-field identical
method bodies, differing only in the namespace tag (`flt`, `upd`, `cnd`);
they are embedded as a single structure `Fragment` plus tag-parameterized
constructors, with per-kind wrappers below mirroring the source items.
-/

/-- An expression fragment (`expr::Filter` / `expr::Update` / `expr::Condition`):
expression template plus ordered name/value/sensitive-value substitution lists. -/
structure Fragment where
  expression : Bytes
  names : List (Bytes × Bytes)
  values : List (Bytes × AttrVal)
  sensitiveValues : List (Bytes × AttrVal)
deriving DecidableEq, Repr

/-- The `flt_` namespace tag used by `Filter`. -/
def fltTag : Bytes := asciiBytes "flt_"

/-- The `upd_` namespace tag used by `Update`. -/
def updTag : Bytes := asciiBytes "upd_"

/-- The `cnd_` namespace tag used by `Condition`. -/
def cndTag : Bytes := asciiBytes "cnd_"

/-- Rust `Filter::new`-shape constructor: rewrite every `#` to `#<tag>` and every
`:` to `:<tag>` in the raw template (35 = `'#'`, 58 = `':'`). -/
def Fragment.mk' (tag : Bytes) (expression : Bytes) : Fragment :=
  { expression := replaceByte 58 (58 :: tag) (replaceByte 35 (35 :: tag) expression)
    names := []
    values := []
    sensitiveValues := [] }

/-- Rust `.name(name, value)`: push `("#<tag><name stripped of leading '#'>", value)`. -/
def Fragment.pushName (tag : Bytes) (f : Fragment) (nm : Bytes) (value : Bytes) : Fragment :=
  { f with names := f.names ++ [(35 :: (tag ++ nm.dropWhile (· = 35)), value)] }

/-- Rust `.value(name, value)`: push `(":<tag><name stripped of leading ':'>", value)`;
the serde encoding of the Rust value into an `AttributeValue` is the external
codec, so the model takes the encoded `AttrVal` directly. -/
def Fragment.pushValue (tag : Bytes) (f : Fragment) (nm : Bytes) (value : AttrVal) : Fragment :=
  { f with values := f.values ++ [(58 :: (tag ++ nm.dropWhile (· = 58)), value)] }

/-- Rust `.sensitive_value(name, value)`: as `.value` but into `sensitive_values`. -/
def Fragment.pushSensitiveValue (tag : Bytes) (f : Fragment) (nm : Bytes) (value : AttrVal) :
    Fragment :=
  { f with sensitiveValues := f.sensitiveValues ++ [(58 :: (tag ++ nm.dropWhile (· = 58)), value)] }

/-- Rust `expr::Filter::new`. -/
def Filter.new (expression : Bytes) : Fragment := Fragment.mk' fltTag expression

/-- Rust `expr::Filter::name`. -/
def Filter.name (f : Fragment) (nm value : Bytes) : Fragment := Fragment.pushName fltTag f nm value

/-- Rust `expr::Filter::value`. -/
def Filter.value (f : Fragment) (nm : Bytes) (v : AttrVal) : Fragment :=
  Fragment.pushValue fltTag f nm v

/-- Rust `expr::Filter::sensitive_value`. -/
def Filter.sensitiveValue (f : Fragment) (nm : Bytes) (v : AttrVal) : Fragment :=
  Fragment.pushSensitiveValue fltTag f nm v

/-- Rust `expr::Update::new`. -/
def Update.new (expression : Bytes) : Fragment := Fragment.mk' updTag expression

/-- Rust `expr::Update::name`. -/
def Update.name (f : Fragment) (nm value : Bytes) : Fragment := Fragment.pushName updTag f nm value

/-- Rust `expr::Update::value`. -/
def Update.value (f : Fragment) (nm : Bytes) (v : AttrVal) : Fragment :=
  Fragment.pushValue updTag f nm v

/-- Rust `expr::Update::sensitive_value`. -/
def Update.sensitiveValue (f : Fragment) (nm : Bytes) (v : AttrVal) : Fragment :=
  Fragment.pushSensitiveValue updTag f nm v

/-- Rust `expr::Condition::new`. -/
def Condition.new (expression : Bytes) : Fragment := Fragment.mk' cndTag expression

/-- Rust `expr::Condition::name`. -/
def Condition.name (f : Fragment) (nm value : Bytes) : Fragment :=
  Fragment.pushName cndTag f nm value

/-- Rust `expr::Condition::value`. -/
def Condition.value (f : Fragment) (nm : Bytes) (v : AttrVal) : Fragment :=
  Fragment.pushValue cndTag f nm v

/-- Rust `expr::Condition::sensitive_value`. -/
def Condition.sensitiveValue (f : Fragment) (nm : Bytes) (v : AttrVal) : Fragment :=
  Fragment.pushSensitiveValue cndTag f nm v

end Fragments

-- A few quick sanity examples of the fragment model.
example :
    (Update.name (Update.new (asciiBytes "SET #x = :x")) (asciiBytes "#x")
      (asciiBytes "field")).expression = asciiBytes "SET #upd_x = :upd_x" := by decide

example :
    (Update.name (Update.new (asciiBytes "SET #x = :x")) (asciiBytes "#x")
      (asciiBytes "field")).names = [(asciiBytes "#upd_x", asciiBytes "field")] := by decide

section ProjectionCompiler
/-!
`src/expr.rs`: `Projection::new` and its reserved-word table.
-/

/-- Rust `Projection::RESERVED_WORDS` (the DynamoDB reserved-word table), verbatim. -/
def RESERVED_WORDS : List String := [
  "ABORT", "ABSOLUTE", "ACTION", "ADD", "AFTER", "AGENT", "AGGREGATE", "ALL",
  "ALLOCATE", "ALTER", "ANALYZE", "AND", "ANY", "ARCHIVE", "ARE", "ARRAY",
  "AS", "ASC", "ASCII", "ASENSITIVE", "ASSERTION", "ASYMMETRIC", "AT", "ATOMIC",
  "ATTACH", "ATTRIBUTE", "AUTH", "AUTHORIZATION", "AUTHORIZE", "AUTO", "AVG", "BACK",
  "BACKUP", "BASE", "BATCH", "BEFORE", "BEGIN", "BETWEEN", "BIGINT", "BINARY",
  "BIT", "BLOB", "BLOCK", "BOOLEAN", "BOTH", "BREADTH", "BUCKET", "BULK",
  "BY", "BYTE", "CALL", "CALLED", "CALLING", "CAPACITY", "CASCADE", "CASCADED",
  "CASE", "CAST", "CATALOG", "CHAR", "CHARACTER", "CHECK", "CLASS", "CLOB",
  "CLOSE", "CLUSTER", "CLUSTERED", "CLUSTERING", "CLUSTERS", "COALESCE", "COLLATE", "COLLATION",
  "COLLECTION", "COLUMN", "COLUMNS", "COMBINE", "COMMENT", "COMMIT", "COMPACT", "COMPILE",
  "COMPRESS", "CONDITION", "CONFLICT", "CONNECT", "CONNECTION", "CONSISTENCY", "CONSISTENT", "CONSTRAINT",
  "CONSTRAINTS", "CONSTRUCTOR", "CONSUMED", "CONTINUE", "CONVERT", "COPY", "CORRESPONDING", "COUNT",
  "COUNTER", "CREATE", "CROSS", "CUBE", "CURRENT", "CURSOR", "CYCLE", "DATA",
  "DATABASE", "DATE", "DATETIME", "DAY", "DEALLOCATE", "DEC", "DECIMAL", "DECLARE",
  "DEFAULT", "DEFERRABLE", "DEFERRED", "DEFINE", "DEFINED", "DEFINITION", "DELETE", "DELIMITED",
  "DEPTH", "DEREF", "DESC", "DESCRIBE", "DESCRIPTOR", "DETACH", "DETERMINISTIC", "DIAGNOSTICS",
  "DIRECTORIES", "DISABLE", "DISCONNECT", "DISTINCT", "DISTRIBUTE", "DO", "DOMAIN", "DOUBLE",
  "DROP", "DUMP", "DURATION", "DYNAMIC", "EACH", "ELEMENT", "ELSE", "ELSEIF",
  "EMPTY", "ENABLE", "END", "EQUAL", "EQUALS", "ERROR", "ESCAPE", "ESCAPED",
  "EVAL", "EVALUATE", "EXCEEDED", "EXCEPT", "EXCEPTION", "EXCEPTIONS", "EXCLUSIVE", "EXEC",
  "EXECUTE", "EXISTS", "EXIT", "EXPLAIN", "EXPLODE", "EXPORT", "EXPRESSION", "EXTENDED",
  "EXTERNAL", "EXTRACT", "FAIL", "FALSE", "FAMILY", "FETCH", "FIELDS", "FILE",
  "FILTER", "FILTERING", "FINAL", "FINISH", "FIRST", "FIXED", "FLATTERN", "FLOAT",
  "FOR", "FORCE", "FOREIGN", "FORMAT", "FORWARD", "FOUND", "FREE", "FROM",
  "FULL", "FUNCTION", "FUNCTIONS", "GENERAL", "GENERATE", "GET", "GLOB", "GLOBAL",
  "GO", "GOTO", "GRANT", "GREATER", "GROUP", "GROUPING", "HANDLER", "HASH",
  "HAVE", "HAVING", "HEAP", "HIDDEN", "HOLD", "HOUR", "IDENTIFIED", "IDENTITY",
  "IF", "IGNORE", "IMMEDIATE", "IMPORT", "IN", "INCLUDING", "INCLUSIVE", "INCREMENT",
  "INCREMENTAL", "INDEX", "INDEXED", "INDEXES", "INDICATOR", "INFINITE", "INITIALLY", "INLINE",
  "INNER", "INNTER", "INOUT", "INPUT", "INSENSITIVE", "INSERT", "INSTEAD", "INT",
  "INTEGER", "INTERSECT", "INTERVAL", "INTO", "INVALIDATE", "IS", "ISOLATION", "ITEM",
  "ITEMS", "ITERATE", "JOIN", "KEY", "KEYS", "LAG", "LANGUAGE", "LARGE",
  "LAST", "LATERAL", "LEAD", "LEADING", "LEAVE", "LEFT", "LENGTH", "LESS",
  "LEVEL", "LIKE", "LIMIT", "LIMITED", "LINES", "LIST", "LOAD", "LOCAL",
  "LOCALTIME", "LOCALTIMESTAMP", "LOCATION", "LOCATOR", "LOCK", "LOCKS", "LOG", "LOGED",
  "LONG", "LOOP", "LOWER", "MAP", "MATCH", "MATERIALIZED", "MAX", "MAXLEN",
  "MEMBER", "MERGE", "METHOD", "METRICS", "MIN", "MINUS", "MINUTE", "MISSING",
  "MOD", "MODE", "MODIFIES", "MODIFY", "MODULE", "MONTH", "MULTI", "MULTISET",
  "NAME", "NAMES", "NATIONAL", "NATURAL", "NCHAR", "NCLOB", "NEW", "NEXT",
  "NO", "NONE", "NOT", "NULL", "NULLIF", "NUMBER", "NUMERIC", "OBJECT",
  "OF", "OFFLINE", "OFFSET", "OLD", "ON", "ONLINE", "ONLY", "OPAQUE",
  "OPEN", "OPERATOR", "OPTION", "OR", "ORDER", "ORDINALITY", "OTHER", "OTHERS",
  "OUT", "OUTER", "OUTPUT", "OVER", "OVERLAPS", "OVERRIDE", "OWNER", "PAD",
  "PARALLEL", "PARAMETER", "PARAMETERS", "PARTIAL", "PARTITION", "PARTITIONED", "PARTITIONS", "PATH",
  "PERCENT", "PERCENTILE", "PERMISSION", "PERMISSIONS", "PIPE", "PIPELINED", "PLAN", "POOL",
  "POSITION", "PRECISION", "PREPARE", "PRESERVE", "PRIMARY", "PRIOR", "PRIVATE", "PRIVILEGES",
  "PROCEDURE", "PROCESSED", "PROJECT", "PROJECTION", "PROPERTY", "PROVISIONING", "PUBLIC", "PUT",
  "QUERY", "QUIT", "QUORUM", "RAISE", "RANDOM", "RANGE", "RANK", "RAW",
  "READ", "READS", "REAL", "REBUILD", "RECORD", "RECURSIVE", "REDUCE", "REF",
  "REFERENCE", "REFERENCES", "REFERENCING", "REGEXP", "REGION", "REINDEX", "RELATIVE", "RELEASE",
  "REMAINDER", "RENAME", "REPEAT", "REPLACE", "REQUEST", "RESET", "RESIGNAL", "RESOURCE",
  "RESPONSE", "RESTORE", "RESTRICT", "RESULT", "RETURN", "RETURNING", "RETURNS", "REVERSE",
  "REVOKE", "RIGHT", "ROLE", "ROLES", "ROLLBACK", "ROLLUP", "ROUTINE", "ROW",
  "ROWS", "RULE", "RULES", "SAMPLE", "SATISFIES", "SAVE", "SAVEPOINT", "SCAN",
  "SCHEMA", "SCOPE", "SCROLL", "SEARCH", "SECOND", "SECTION", "SEGMENT", "SEGMENTS",
  "SELECT", "SELF", "SEMI", "SENSITIVE", "SEPARATE", "SEQUENCE", "SERIALIZABLE", "SESSION",
  "SET", "SETS", "SHARD", "SHARE", "SHARED", "SHORT", "SHOW", "SIGNAL",
  "SIMILAR", "SIZE", "SKEWED", "SMALLINT", "SNAPSHOT", "SOME", "SOURCE", "SPACE",
  "SPACES", "SPARSE", "SPECIFIC", "SPECIFICTYPE", "SPLIT", "SQL", "SQLCODE", "SQLERROR",
  "SQLEXCEPTION", "SQLSTATE", "SQLWARNING", "START", "STATE", "STATIC", "STATUS", "STORAGE",
  "STORE", "STORED", "STREAM", "STRING", "STRUCT", "STYLE", "SUB", "SUBMULTISET",
  "SUBPARTITION", "SUBSTRING", "SUBTYPE", "SUM", "SUPER", "SYMMETRIC", "SYNONYM", "SYSTEM",
  "TABLE", "TABLESAMPLE", "TEMP", "TEMPORARY", "TERMINATED", "TEXT", "THAN", "THEN",
  "THROUGHPUT", "TIME", "TIMESTAMP", "TIMEZONE", "TINYINT", "TO", "TOKEN", "TOTAL",
  "TOUCH", "TRAILING", "TRANSACTION", "TRANSFORM", "TRANSLATE", "TRANSLATION", "TREAT", "TRIGGER",
  "TRIM", "TRUE", "TRUNCATE", "TTL", "TUPLE", "TYPE", "UNDER", "UNDO",
  "UNION", "UNIQUE", "UNIT", "UNKNOWN", "UNLOGGED", "UNNEST", "UNPROCESSED", "UNSIGNED",
  "UNTIL", "UPDATE", "UPPER", "URL", "USAGE", "USE", "USER", "USERS",
  "USING", "UUID", "VACUUM", "VALUE", "VALUED", "VALUES", "VARCHAR", "VARIABLE",
  "VARIANCE", "VARINT", "VARYING", "VIEW", "VIEWS", "VIRTUAL", "VOID", "WAIT",
  "WHEN", "WHENEVER", "WHERE", "WHILE", "WINDOW", "WITH", "WITHIN", "WITHOUT",
  "WORK", "WRAPPED", "WRITE", "YEAR", "ZONE"
]

/-- Rust `LONGEST_RESERVED` from `Projection::new`. -/
def LONGEST_RESERVED : Nat := 14

/-- The reserved-word set as byte strings (`Projection::reserved_words`). -/
def reservedWordsBytes : List Bytes := RESERVED_WORDS.map asciiBytes

/-- Rust `u8::make_ascii_uppercase`: map bytes `a`-`z` to `A`-`Z`. -/
def upperAscii (b : UInt8) : UInt8 := if 97 <= b && b <= 122 then b - 32 else b

/-- The reserved check in `Projection::new`: names of byte length at most
`LONGEST_RESERVED` are uppercased into the stack buffer and looked up in the
reserved-word set; longer names are never reserved. -/
def isReserved (s : Bytes) : Bool :=
  if s.length <= LONGEST_RESERVED then reservedWordsBytes.contains (s.map upperAscii)
  else false

/-- Rust `is_invalid` from `Projection::new`: a byte that is not ASCII alphanumeric
and not `_` (95). -/
def isInvalidByte (b : UInt8) : Bool :=
  !((48 <= b && b <= 57) || (65 <= b && b <= 90) || (97 <= b && b <= 122)) && b != 95

/-- Rust `format!("#prj_{count:03}")`: decimal digits, zero-padded to width 3. -/
def natToBytes (n : Nat) : Bytes :=
  let rec digits : Nat → Nat → Bytes
    | 0, _ => []
    | _ + 1, 0 => []
    | fuel + 1, m => digits fuel (m / 10) ++ [UInt8.ofNat (48 + m % 10)]
  if n = 0 then [48] else digits 12 n

/-- The `#prj_NNN` placeholder for substitution counter `c`. -/
def prjVar (c : Nat) : Bytes :=
  let ds := natToBytes c
  asciiBytes "#prj_" ++ List.replicate (3 - ds.length) 48 ++ ds

/-- A compiled projection expression (`expr::Projection`; `StaticProjection`
holds the same data leaked to `'static`). -/
structure Projection where
  expression : Bytes
  names : List (Bytes × Bytes)
deriving DecidableEq, Repr

/-- The `for s in attr_names` loop of `Projection::new`: `seen` is the
`FnvHashSet` of already-emitted names, `count` the substitution counter,
`expr` the accumulated expression (each emitted segment followed by a comma,
44), `names` the accumulated name mapping. -/
def projLoop : List Bytes → List Bytes → Nat → Bytes → List (Bytes × Bytes) →
    Bytes × List (Bytes × Bytes)
  | [], _, _, expr, names => (expr, names)
  | s :: rest, seen, count, expr, names =>
    if seen.contains s then projLoop rest seen count expr names
    else if isReserved s || s.any isInvalidByte then
      let var := prjVar count
      projLoop rest (s :: seen) (count + 1) (expr ++ var ++ [44]) (names ++ [(var, s)])
    else
      projLoop rest (s :: seen) count (expr ++ s ++ [44]) names

/-- Rust `Projection::new`: run the loop, then `expression.truncate(len - 1)`
(saturating) to drop the trailing comma. -/
def Projection.new (attrNames : List Bytes) : Projection :=
  let (expr, names) := projLoop attrNames [] 0 [] []
  { expression := expr.take (expr.length - 1), names := names }

end ProjectionCompiler

example :
    (Projection.new [asciiBytes "alpha", asciiBytes "void", asciiBytes "beta",
      asciiBytes "alpha", asciiBytes "void", asciiBytes "green"]).expression
      = asciiBytes "alpha,#prj_000,beta,green" := by decide

section ProjectionSpec
/-!
Specification-side restatement of the projection compiler, following the
wording of the spec: duplicates dropped keeping first-seen order; a distinct
name is replaced by a sequential zero-padded `#prj_NNN` placeholder exactly
when it is reserved (case-insensitive member of the reserved-word table) or
contains a byte outside `[A-Za-z0-9_]`, with the counter incremented only for
substituted names; segments are joined with commas.
-/

/-- Keep the first occurrence of each name, in order (`seen` accumulates). -/
def dedupAux (seen : List Bytes) : List Bytes → List Bytes
  | [] => []
  | s :: rest =>
    if seen.contains s then dedupAux seen rest else s :: dedupAux (s :: seen) rest

/-- Distinct input names in first-seen order. -/
def dedupFirstSeen (l : List Bytes) : List Bytes := dedupAux [] l

/-- Spec-side reserved test: case-insensitive membership in the reserved-word
table, with no length shortcut. -/
def specReserved (s : Bytes) : Bool := reservedWordsBytes.contains (s.map upperAscii)

/-- A name is substituted exactly when it is reserved or contains a byte
outside `[A-Za-z0-9_]`. -/
def requiresPlaceholder (s : Bytes) : Bool := specReserved s || s.any isInvalidByte

/-- Spec-side segment/name-map computation over already-deduplicated names:
the `c`-th substituted name becomes placeholder `#prj_c` (zero-padded) and is
recorded in the name map; other names are emitted literally. -/
def specSegs : Nat → List Bytes → List Bytes × List (Bytes × Bytes)
  | _, [] => ([], [])
  | c, s :: rest =>
    if requiresPlaceholder s then
      let var := prjVar c
      let (segs, nms) := specSegs (c + 1) rest
      (var :: segs, (var, s) :: nms)
    else
      let (segs, nms) := specSegs c rest
      (s :: segs, nms)

/-- Comma-separated join of segments. -/
def joinComma : List Bytes → Bytes
  | [] => []
  | [s] => s
  | s :: rest => s ++ [44] ++ joinComma rest

/-- Join where every segment is followed by a trailing comma, as the
`Projection::new` loop accumulates its expression before truncation. -/
def joinTrailing : List Bytes → Bytes
  | [] => []
  | s :: rest => s ++ [44] ++ joinTrailing rest

/-- Every reserved word has byte length at most `LONGEST_RESERVED`. -/
theorem reservedWordsBytes_short :
    reservedWordsBytes.all (fun w => decide (w.length ≤ LONGEST_RESERVED)) = true := by decide

/-- The length-limited buffer check of `Projection::new` equals the plain
case-insensitive reserved-word membership test. -/
theorem isReserved_eq_specReserved (s : Bytes) : isReserved s = specReserved s := by
  unfold isReserved specReserved
  split
  · rfl
  · rename_i hlen
    symm
    rw [List.contains_eq_any_beq, List.any_eq_false]
    intro w hw
    have hshort := List.all_eq_true.mp reservedWordsBytes_short w hw
    have hwlen : w.length ≤ LONGEST_RESERVED := of_decide_eq_true hshort
    intro hbeq
    have : w = s.map upperAscii := (eq_of_beq hbeq).symm
    have : w.length = s.length := by rw [this, List.length_map]
    omega

theorem specSegs_length (d : List Bytes) : ∀ c, (specSegs c d).1.length = d.length := by
  induction d with
  | nil => intro c; simp [specSegs]
  | cons s rest ih =>
    intro c
    by_cases hp : requiresPlaceholder s = true <;> simp [specSegs, hp, ih]

theorem specSegs_ne_nil (d : List Bytes) (c : Nat) (h : d ≠ []) : (specSegs c d).1 ≠ [] := by
  intro hnil
  have := specSegs_length d c
  rw [hnil] at this
  exact h (List.eq_nil_of_length_eq_zero this.symm)

theorem joinTrailing_eq_joinComma (segs : List Bytes) (h : segs ≠ []) :
    joinTrailing segs = joinComma segs ++ [44] := by
  induction segs with
  | nil => exact absurd rfl h
  | cons s rest ih =>
    cases rest with
    | nil => simp [joinTrailing, joinComma]
    | cons t more =>
      have h2 : joinTrailing (s :: t :: more) = s ++ [44] ++ joinTrailing (t :: more) := rfl
      have h3 : joinComma (s :: t :: more) = s ++ [44] ++ joinComma (t :: more) := rfl
      rw [h2, h3, ih (by simp)]
      simp

theorem projLoop_eq_spec (attrs : List Bytes) :
    ∀ (seen : List Bytes) (c : Nat) (e : Bytes) (ns : List (Bytes × Bytes)),
      projLoop attrs seen c e ns =
        (e ++ joinTrailing (specSegs c (dedupAux seen attrs)).1,
         ns ++ (specSegs c (dedupAux seen attrs)).2) := by
  induction attrs with
  | nil => intro seen c e ns; simp [projLoop, dedupAux, specSegs, joinTrailing]
  | cons s rest ih =>
    intro seen c e ns
    have hr : (isReserved s || s.any isInvalidByte) = requiresPlaceholder s := by
      rw [isReserved_eq_specReserved]; rfl
    have hstep : projLoop (s :: rest) seen c e ns =
        if seen.contains s then projLoop rest seen c e ns
        else if isReserved s || s.any isInvalidByte then
          projLoop rest (s :: seen) (c + 1) (e ++ prjVar c ++ [44]) (ns ++ [(prjVar c, s)])
        else projLoop rest (s :: seen) c (e ++ s ++ [44]) ns := rfl
    have hd : dedupAux seen (s :: rest) =
        if seen.contains s then dedupAux seen rest else s :: dedupAux (s :: seen) rest := rfl
    have hsg : ∀ (c' : Nat) (d : List Bytes), specSegs c' (s :: d) =
        if requiresPlaceholder s then
          (prjVar c' :: (specSegs (c' + 1) d).1, (prjVar c', s) :: (specSegs (c' + 1) d).2)
        else (s :: (specSegs c' d).1, (specSegs c' d).2) := by
      intro c' d
      by_cases hq : requiresPlaceholder s = true <;> simp [specSegs, hq]
    have hjt : ∀ (x : Bytes) (xs : List Bytes),
        joinTrailing (x :: xs) = x ++ [44] ++ joinTrailing xs := fun _ _ => rfl
    rw [hstep, hr, hd]
    by_cases hseen : seen.contains s
    · rw [if_pos hseen, if_pos hseen, ih]
    · rw [if_neg hseen, if_neg hseen]
      by_cases hp : requiresPlaceholder s = true
      · rw [if_pos hp, ih, hsg, if_pos hp, hjt]
        simp
      · rw [if_neg hp, ih, hsg, if_neg hp, hjt]
        simp

theorem projection_new_eq (l : List Bytes) :
    Projection.new l =
      ⟨joinComma (specSegs 0 (dedupFirstSeen l)).1, (specSegs 0 (dedupFirstSeen l)).2⟩ := by
  unfold Projection.new dedupFirstSeen
  rw [projLoop_eq_spec]
  cases hd : dedupAux [] l with
  | nil => simp [hd, specSegs, joinTrailing, joinComma]
  | cons s rest =>
    have hne : (specSegs 0 (dedupAux [] l)).1 ≠ [] := by
      rw [hd]; exact specSegs_ne_nil _ _ (by simp)
    rw [← hd]
    rw [joinTrailing_eq_joinComma _ hne]
    simp

end ProjectionSpec

/-- The `news😛` test attribute: `news` followed by the UTF-8 bytes of U+1F61B. -/
def newsEmoji : Bytes := asciiBytes "news" ++ [0xF0, 0x9F, 0x98, 0x9B]

/-- The attribute-name list of `ensure_expected_substitutions_for_projection_expression`. -/
def testSet1 : List Bytes :=
  [asciiBytes "hello", asciiBytes "user_id", asciiBytes "window", newsEmoji,
   asciiBytes "windowed", asciiBytes "face", asciiBytes "unprocessed.stuff",
   asciiBytes "void", asciiBytes "reader"]

/-- The attribute-name list of `projection_expression_filters_out_duplicates`. -/
def testSet2 : List Bytes :=
  [asciiBytes "alpha", asciiBytes "void", asciiBytes "beta",
   asciiBytes "alpha", asciiBytes "void", asciiBytes "green"]

/-- C3: for every attribute-name list, `Projection::new` emits one
comma-separated segment per distinct input name in first-seen order, where a
name is replaced by the sequential zero-padded placeholder `#prj_NNN`
(counter incremented only for substituted names, with a name-map entry
recorded) exactly when it is reserved or contains a byte outside
`[A-Za-z0-9_]`, and is emitted literally otherwise; in particular the two
concrete vectors from the spec produce exactly the expected expression and
name map. -/
theorem C3_projection_new_characterization :
    (∀ l : List Bytes,
       (Projection.new l).expression = joinComma (specSegs 0 (dedupFirstSeen l)).1 ∧
       (Projection.new l).names = (specSegs 0 (dedupFirstSeen l)).2 ∧
       (specSegs 0 (dedupFirstSeen l)).1.length = (dedupFirstSeen l).length) ∧
    Projection.new testSet1 =
      ⟨asciiBytes "hello,user_id,#prj_000,#prj_001,windowed,face,#prj_002,#prj_003,reader",
       [(asciiBytes "#prj_000", asciiBytes "window"),
        (asciiBytes "#prj_001", newsEmoji),
        (asciiBytes "#prj_002", asciiBytes "unprocessed.stuff"),
        (asciiBytes "#prj_003", asciiBytes "void")]⟩ ∧
    Projection.new testSet2 =
      ⟨asciiBytes "alpha,#prj_000,beta,green", [(asciiBytes "#prj_000", asciiBytes "void")]⟩ := by
  refine ⟨fun l => ?_, by decide, by decide⟩
  rw [projection_new_eq l]
  exact ⟨rfl, rfl, specSegs_length _ _⟩

section FragmentOps
/-!
Arbitrary caller-built fragments: any value produced by chaining
`new`/`name`/`value`/`sensitive_value` calls is `buildFragment tag e ops`
for the corresponding operation list.
-/

/-- One chained builder call on a fragment. -/
inductive FragOp where
  | pushName (nm attr : Bytes)
  | pushValue (nm : Bytes) (v : AttrVal)
  | pushSensitiveValue (nm : Bytes) (v : AttrVal)

/-- Apply one chained call. -/
def applyFragOp (tag : Bytes) (f : Fragment) : FragOp → Fragment
  | .pushName nm attr => Fragment.pushName tag f nm attr
  | .pushValue nm v => Fragment.pushValue tag f nm v
  | .pushSensitiveValue nm v => Fragment.pushSensitiveValue tag f nm v

/-- A fragment built from a raw template by a chain of builder calls. -/
def buildFragment (tag : Bytes) (e : Bytes) (ops : List FragOp) : Fragment :=
  ops.foldl (applyFragOp tag) (Fragment.mk' tag e)

theorem foldl_names_shape (tag : Bytes) (P : Bytes → Prop)
    (hP : ∀ nm, P (35 :: (tag ++ nm))) :
    ∀ (ops : List FragOp) (f : Fragment), (∀ p ∈ f.names, P p.1) →
      ∀ p ∈ (ops.foldl (applyFragOp tag) f).names, P p.1 := by
  intro ops
  induction ops with
  | nil => intro f hf; exact hf
  | cons op rest ih =>
    intro f hf
    refine ih (applyFragOp tag f op) ?_
    cases op with
    | pushName nm attr =>
      intro p hp
      simp only [applyFragOp, Fragment.pushName, List.mem_append, List.mem_singleton] at hp
      rcases hp with hp | hp
      · exact hf p hp
      · rw [hp]; exact hP _
    | pushValue nm v => exact hf
    | pushSensitiveValue nm v => exact hf

theorem foldl_values_shape (tag : Bytes) (P : Bytes → Prop)
    (hP : ∀ nm, P (58 :: (tag ++ nm))) :
    ∀ (ops : List FragOp) (f : Fragment),
      (∀ p ∈ f.values ++ f.sensitiveValues, P p.1) →
      ∀ p ∈ (ops.foldl (applyFragOp tag) f).values ++
            (ops.foldl (applyFragOp tag) f).sensitiveValues, P p.1 := by
  intro ops
  induction ops with
  | nil => intro f hf; exact hf
  | cons op rest ih =>
    intro f hf
    refine ih (applyFragOp tag f op) ?_
    cases op with
    | pushName nm attr => exact hf
    | pushValue nm v =>
      intro p hp
      simp only [applyFragOp, Fragment.pushValue, List.mem_append, List.mem_singleton] at hp
      rcases hp with (hp | hp) | hp
      · exact hf p (List.mem_append_left _ hp)
      · rw [hp]; exact hP _
      · exact hf p (List.mem_append_right _ hp)
    | pushSensitiveValue nm v =>
      intro p hp
      simp only [applyFragOp, Fragment.pushSensitiveValue, List.mem_append,
        List.mem_singleton] at hp
      rcases hp with hp | hp | hp
      · exact hf p (List.mem_append_left _ hp)
      · exact hf p (List.mem_append_right _ hp)
      · rw [hp]; exact hP _

theorem buildFragment_names_shape (tag e : Bytes) (ops : List FragOp) :
    ∀ p ∈ (buildFragment tag e ops).names, ∃ r, p.1 = 35 :: (tag ++ r) := by
  refine foldl_names_shape tag (fun x => ∃ r, x = 35 :: (tag ++ r))
    (fun nm => ⟨nm, rfl⟩) ops (Fragment.mk' tag e) ?_
  intro p hp
  simp [Fragment.mk'] at hp

theorem buildFragment_values_shape (tag e : Bytes) (ops : List FragOp) :
    ∀ p ∈ (buildFragment tag e ops).values ++ (buildFragment tag e ops).sensitiveValues,
      ∃ r, p.1 = 58 :: (tag ++ r) := by
  refine foldl_values_shape tag (fun x => ∃ r, x = 58 :: (tag ++ r))
    (fun nm => ⟨nm, rfl⟩) ops (Fragment.mk' tag e) ?_
  intro p hp
  simp [Fragment.mk'] at hp

theorem upd_cnd_tagged_ne (b : UInt8) (r r' : Bytes) :
    (b :: (updTag ++ r) : Bytes) ≠ b :: (cndTag ++ r') := by
  have hu : updTag = [117, 112, 100, 95] := by decide
  have hc : cndTag = [99, 110, 100, 95] := by decide
  rw [hu, hc]
  intro h
  simp at h

end FragmentOps

section AssocLemmas

theorem assocGet_insert_ne {β : Type} (m : List (Bytes × β)) (k' k : Bytes) (v : β)
    (h : k' ≠ k) : assocGet (assocInsert m k' v) k = assocGet m k := by
  induction m with
  | nil => simp [assocInsert, assocGet, List.find?, beq_eq_false_iff_ne.mpr h]
  | cons a rest ih =>
    obtain ⟨ak, av⟩ := a
    by_cases hak : ak = k'
    · subst hak
      simp [assocInsert, assocGet, List.find?, beq_eq_false_iff_ne.mpr h]
    · have : assocInsert ((ak, av) :: rest) k' v = (ak, av) :: assocInsert rest k' v := by
        simp [assocInsert, hak]
      rw [this]
      by_cases hk : ak = k
      · subst hk
        simp [assocGet, List.find?]
      · simp only [assocGet, List.find?, beq_eq_false_iff_ne.mpr hk] at *
        exact ih

theorem assocGet_insertAll_not_mem {β : Type} (B : List (Bytes × β)) :
    ∀ (m : List (Bytes × β)) (k : Bytes), (∀ q ∈ B, q.1 ≠ k) →
      assocGet (assocInsertAll m B) k = assocGet m k := by
  induction B with
  | nil => intro m k _; rfl
  | cons q rest ih =>
    intro m k hq
    have hstep : assocInsertAll m (q :: rest) = assocInsertAll (assocInsert m q.1 q.2) rest := rfl
    rw [hstep, ih _ k (fun r hr => hq r (List.mem_cons_of_mem _ hr)),
      assocGet_insert_ne _ _ _ _ (hq q (List.mem_cons_self _ _))]

theorem collectMap_append {β : Type} (A B : List (Bytes × β)) :
    collectMap (A ++ B) = assocInsertAll (collectMap A) B := by
  simp [collectMap, assocInsertAll, List.foldl_append]

end AssocLemmas

section UpdateOneBuild
/-!
`src/model.rs`, `UpdateOne::execute`: the pure request-assembly part of the
update-item operation (the `tracing` span capture, the network send and the
response handling are external effects; the second component returned below
is the value map recorded into the diagnostic span, which is captured
*before* the sensitive values are merged in).
-/

/-- The pure content of the prepared `update_item` request. -/
structure UpdateItemRequest where
  key : Item
  updateExpression : Bytes
  conditionExpression : Option Bytes
  expressionAttributeNames : Option (List (Bytes × Bytes))
  expressionAttributeValues : Option Item
deriving DecidableEq, Repr

/-- Rust `UpdateOne::execute`, request assembly: condition names are chained with
the update's names into one map; values are assembled by extending with the
condition's values, the update's values (diagnostic capture point), then the
condition's and update's sensitive values. -/
def UpdateOne.build (key : Item) (update : Fragment) (condition : Option Fragment) :
    UpdateItemRequest × Option Item :=
  let parts := match condition with
    | some c => (c.names, c.values, c.sensitiveValues)
    | none => ([], [], [])
  let cndNames := parts.1
  let cndValues := parts.2.1
  let cndSensitiveValues := parts.2.2
  let needsNames := !cndNames.isEmpty || !update.names.isEmpty
  let names := if needsNames then some (collectMap (cndNames ++ update.names)) else none
  let needsValues := !cndValues.isEmpty || !cndSensitiveValues.isEmpty ||
    !update.values.isEmpty || !update.sensitiveValues.isEmpty
  let captured :=
    if needsValues then some (assocInsertAll (assocInsertAll [] cndValues) update.values)
    else none
  let values := captured.map (fun m =>
    assocInsertAll (assocInsertAll m cndSensitiveValues) update.sensitiveValues)
  ({ key := key
     updateExpression := update.expression
     conditionExpression := condition.map (fun c => c.expression)
     expressionAttributeNames := names
     expressionAttributeValues := values }, captured)

end UpdateOneBuild

theorem updateOne_build_names (key : Item) (u c : Fragment) :
    (UpdateOne.build key u (some c)).1.expressionAttributeNames
      = if (c.names ++ u.names).isEmpty then none
        else some (collectMap (c.names ++ u.names)) := by
  show (if (!c.names.isEmpty || !u.names.isEmpty) then some (collectMap (c.names ++ u.names))
        else none) = _
  rcases hcn : c.names with _ | ⟨a, as⟩ <;> rcases hun : u.names with _ | ⟨b, bs⟩ <;>
    simp [List.isEmpty]

/-- C2: merging any caller-built `Update` fragment with any caller-built
`Condition` fragment in `UpdateOne::execute` keeps every entry of both name
lists in the merged list, the two fragments' name keys (and value keys,
sensitive values included) are disjoint because `Update` prefixes tokens with
`upd_` while `Condition` prefixes with `cnd_`, and the condition's entries
survive unchanged in the collected expression-attribute-names map; in
particular the spec's concrete update/condition pair yields a request with
both name entries and the update's value entry. -/
theorem C2_update_condition_merge_no_collision :
    (∀ (e1 e2 : Bytes) (ops1 ops2 : List FragOp) (key : Item),
      let u := buildFragment updTag e1 ops1
      let c := buildFragment cndTag e2 ops2
      let merged := c.names ++ u.names
      ((UpdateOne.build key u (some c)).1.expressionAttributeNames
          = if merged.isEmpty then none else some (collectMap merged)) ∧
      (∀ p ∈ u.names, p ∈ merged) ∧
      (∀ p ∈ c.names, p ∈ merged) ∧
      (∀ p ∈ u.names, ∀ q ∈ c.names, p.1 ≠ q.1) ∧
      (∀ p ∈ u.values ++ u.sensitiveValues,
        ∀ q ∈ c.values ++ c.sensitiveValues, p.1 ≠ q.1) ∧
      (∀ p ∈ c.names, assocGet (collectMap merged) p.1 = assocGet (collectMap c.names) p.1)) ∧
    (UpdateOne.build []
        (Update.value (Update.name (Update.new (asciiBytes "SET #x = :x"))
          (asciiBytes "#x") (asciiBytes "field")) (asciiBytes ":x") (AttrVal.n (asciiBytes "5")))
        (some (Condition.name (Condition.new (asciiBytes "attribute_exists(#y)"))
          (asciiBytes "#y") (asciiBytes "key")))).1
      = { key := []
          updateExpression := asciiBytes "SET #upd_x = :upd_x"
          conditionExpression := some (asciiBytes "attribute_exists(#cnd_y)")
          expressionAttributeNames := some [(asciiBytes "#cnd_y", asciiBytes "key"),
                                            (asciiBytes "#upd_x", asciiBytes "field")]
          expressionAttributeValues := some [(asciiBytes ":upd_x", AttrVal.n (asciiBytes "5"))] } := by
  constructor
  · intro e1 e2 ops1 ops2 key
    refine ⟨updateOne_build_names key _ _, fun p hp => List.mem_append_right _ hp,
      fun p hp => List.mem_append_left _ hp, ?_, ?_, ?_⟩
    · intro p hp q hq
      obtain ⟨r, hr⟩ := buildFragment_names_shape updTag e1 ops1 p hp
      obtain ⟨r', hr'⟩ := buildFragment_names_shape cndTag e2 ops2 q hq
      rw [hr, hr']
      exact upd_cnd_tagged_ne 35 r r'
    · intro p hp q hq
      obtain ⟨r, hr⟩ := buildFragment_values_shape updTag e1 ops1 p hp
      obtain ⟨r', hr'⟩ := buildFragment_values_shape cndTag e2 ops2 q hq
      rw [hr, hr']
      exact upd_cnd_tagged_ne 58 r r'
    · intro p hp
      rw [collectMap_append]
      refine assocGet_insertAll_not_mem _ _ _ ?_
      intro q hq
      obtain ⟨r, hr⟩ := buildFragment_names_shape updTag e1 ops1 q hq
      obtain ⟨r', hr'⟩ := buildFragment_names_shape cndTag e2 ops2 p hp
      rw [hr, hr']
      exact upd_cnd_tagged_ne 35 r r'
  · decide

/-- Closed witness for `C2_update_condition_merge_no_collision`: the general
part applied to the spec's concrete update/condition pair. -/
theorem C2_update_condition_merge_no_collision_witness :
    asciiBytes "#upd_x" ≠ asciiBytes "#cnd_y" := by
  have h := C2_update_condition_merge_no_collision.1
    (asciiBytes "SET #x = :x") (asciiBytes "attribute_exists(#y)")
    [FragOp.pushName (asciiBytes "#x") (asciiBytes "field"),
     FragOp.pushValue (asciiBytes ":x") (AttrVal.n (asciiBytes "5"))]
    [FragOp.pushName (asciiBytes "#y") (asciiBytes "key")] []
  exact h.2.2.2.1 (asciiBytes "#upd_x", asciiBytes "field") (by decide)
    (asciiBytes "#cnd_y", asciiBytes "key") (by decide)

/-- C10: for each of the `Filter`, `Update` and `Condition` builders, `.name`
records the key obtained by stripping all leading `#` (35) from the caller's
token and prepending the builder's prefix (`#flt_` / `#upd_` / `#cnd_`), so a
token written with or without the leading `#` produces the identical entry;
`.value` and `.sensitive_value` behave the same with leading `:` (58) and the
`:`-prefixes. -/
theorem C10_builder_token_stripping :
    ∀ (f : Fragment) (nm attr : Bytes) (v : AttrVal),
      ((Filter.name f nm attr).names
          = f.names ++ [(asciiBytes "#flt_" ++ nm.dropWhile (· = 35), attr)] ∧
       (Update.name f nm attr).names
          = f.names ++ [(asciiBytes "#upd_" ++ nm.dropWhile (· = 35), attr)] ∧
       (Condition.name f nm attr).names
          = f.names ++ [(asciiBytes "#cnd_" ++ nm.dropWhile (· = 35), attr)]) ∧
      ((Filter.value f nm v).values
          = f.values ++ [(asciiBytes ":flt_" ++ nm.dropWhile (· = 58), v)] ∧
       (Update.value f nm v).values
          = f.values ++ [(asciiBytes ":upd_" ++ nm.dropWhile (· = 58), v)] ∧
       (Condition.value f nm v).values
          = f.values ++ [(asciiBytes ":cnd_" ++ nm.dropWhile (· = 58), v)]) ∧
      ((Filter.sensitiveValue f nm v).sensitiveValues
          = f.sensitiveValues ++ [(asciiBytes ":flt_" ++ nm.dropWhile (· = 58), v)] ∧
       (Update.sensitiveValue f nm v).sensitiveValues
          = f.sensitiveValues ++ [(asciiBytes ":upd_" ++ nm.dropWhile (· = 58), v)] ∧
       (Condition.sensitiveValue f nm v).sensitiveValues
          = f.sensitiveValues ++ [(asciiBytes ":cnd_" ++ nm.dropWhile (· = 58), v)]) ∧
      (Filter.name f (35 :: nm) attr = Filter.name f nm attr ∧
       Update.name f (35 :: nm) attr = Update.name f nm attr ∧
       Condition.name f (35 :: nm) attr = Condition.name f nm attr) ∧
      (Filter.value f (58 :: nm) v = Filter.value f nm v ∧
       Update.value f (58 :: nm) v = Update.value f nm v ∧
       Condition.value f (58 :: nm) v = Condition.value f nm v) ∧
      (Filter.sensitiveValue f (58 :: nm) v = Filter.sensitiveValue f nm v ∧
       Update.sensitiveValue f (58 :: nm) v = Update.sensitiveValue f nm v ∧
       Condition.sensitiveValue f (58 :: nm) v = Condition.sensitiveValue f nm v) := by
  intro f nm attr v
  have hf : asciiBytes "#flt_" = 35 :: fltTag := by decide
  have hu : asciiBytes "#upd_" = 35 :: updTag := by decide
  have hc : asciiBytes "#cnd_" = 35 :: cndTag := by decide
  have hf' : asciiBytes ":flt_" = 58 :: fltTag := by decide
  have hu' : asciiBytes ":upd_" = 58 :: updTag := by decide
  have hc' : asciiBytes ":cnd_" = 58 :: cndTag := by decide
  have hdrop35 : (35 :: nm).dropWhile (fun b => b = (35 : UInt8))
      = nm.dropWhile (fun b => b = (35 : UInt8)) := by
    rw [List.dropWhile_cons_of_pos]
    simp
  have hdrop58 : (58 :: nm).dropWhile (fun b => b = (58 : UInt8))
      = nm.dropWhile (fun b => b = (58 : UInt8)) := by
    rw [List.dropWhile_cons_of_pos]
    simp
  refine ⟨⟨?_, ?_, ?_⟩, ⟨?_, ?_, ?_⟩, ⟨?_, ?_, ?_⟩, ⟨?_, ?_, ?_⟩, ⟨?_, ?_, ?_⟩, ⟨?_, ?_, ?_⟩⟩ <;>
    simp [Filter.name, Update.name, Condition.name, Filter.value, Update.value, Condition.value,
      Filter.sensitiveValue, Update.sensitiveValue, Condition.sensitiveValue,
      Fragment.pushName, Fragment.pushValue, Fragment.pushSensitiveValue,
      hf, hu, hc, hf', hu', hc', hdrop35, hdrop58]

section DebugRendering
/-!
`src/expr.rs`: the manual `fmt::Debug` impls for `Filter`, `Update` and
`Condition` print the `expression`, `names` and `values` fields in full but
render `sensitive_values` as only `<N values>` (its length).  Rust's exact
`Formatter` layout is abstracted into an explicit byte-string rendering; the
struct name parameterizes the three identical impls.
-/

/-- Debug rendering of one attribute value. -/
def renderAttrValDbg : AttrVal → Bytes
  | .s v => asciiBytes "S(" ++ v ++ [41]
  | .n v => asciiBytes "N(" ++ v ++ [41]
  | .bool b => if b then asciiBytes "Bool(true)" else asciiBytes "Bool(false)"
  | .null => asciiBytes "Null"

/-- Debug rendering of a key/value substitution list (34 = `'"'`). -/
def renderPairListDbg {β : Type} (rv : β → Bytes) : List (Bytes × β) → Bytes
  | [] => []
  | (k, v) :: rest =>
    [34] ++ k ++ [34] ++ asciiBytes ": " ++ rv v ++ asciiBytes ", " ++ renderPairListDbg rv rest

/-- The `fmt::Debug` output for a fragment: full `expression`, `names` and
`values`, but only the count of `sensitive_values`. -/
def fragmentDebug (structName : Bytes) (f : Fragment) : Bytes :=
  structName ++ asciiBytes " \x7b expression: " ++ [34] ++ f.expression ++ [34] ++
  asciiBytes ", names: [" ++ renderPairListDbg (fun v => [34] ++ v ++ [34]) f.names ++
  asciiBytes "], values: [" ++ renderPairListDbg renderAttrValDbg f.values ++
  asciiBytes "], sensitive_values: <" ++ natToBytes f.sensitiveValues.length ++
  asciiBytes " values> \x7d"

end DebugRendering

section PutOneBuild
/-!
`src/model.rs`, `PutOne::execute`: the pure request-assembly part of the
put-item operation.  The second component is the expression-attribute-values
map recorded into the diagnostic span, captured before `extend` merges the
sensitive values into the wire map.
-/

/-- The pure content of the prepared `put_item` request. -/
structure PutItemRequest where
  item : Item
  conditionExpression : Option Bytes
  expressionAttributeNames : Option (List (Bytes × Bytes))
  expressionAttributeValues : Option Item
deriving DecidableEq, Repr

/-- Rust `PutOne::execute`, request assembly: when a condition is attached, its
names are collected; its values are collected, captured for diagnostics, then
extended with the sensitive values to form the wire map. -/
def PutOne.build (item : Item) (condition : Option Fragment) : PutItemRequest × Option Item :=
  match condition with
  | none =>
    ({ item := item, conditionExpression := none, expressionAttributeNames := none,
       expressionAttributeValues := none }, none)
  | some c =>
    let names := if !c.names.isEmpty then some (collectMap c.names) else none
    let captured :=
      if !c.values.isEmpty || !c.sensitiveValues.isEmpty then some (collectMap c.values)
      else none
    let values := captured.map (fun m => assocInsertAll m c.sensitiveValues)
    ({ item := item, conditionExpression := some c.expression,
       expressionAttributeNames := names, expressionAttributeValues := values }, captured)

end PutOneBuild

theorem mem_assocInsert {β : Type} (m : List (Bytes × β)) (k : Bytes) (v : β) :
    ∀ p ∈ assocInsert m k v, p = (k, v) ∨ p ∈ m := by
  induction m with
  | nil =>
    intro p hp
    simp [assocInsert] at hp
    exact Or.inl hp
  | cons a rest ih =>
    obtain ⟨a1, a2⟩ := a
    intro p hp
    by_cases hk : a1 = k
    · rw [show assocInsert ((a1, a2) :: rest) k v = (k, v) :: rest by
        simp [assocInsert, hk]] at hp
      rcases List.mem_cons.mp hp with h | h
      · exact Or.inl h
      · exact Or.inr (List.mem_cons_of_mem _ h)
    · rw [show assocInsert ((a1, a2) :: rest) k v = (a1, a2) :: assocInsert rest k v by
        simp [assocInsert, hk]] at hp
      rcases List.mem_cons.mp hp with h | h
      · exact Or.inr (by rw [h]; exact List.mem_cons_self _ _)
      · rcases ih p h with h2 | h2
        · exact Or.inl h2
        · exact Or.inr (List.mem_cons_of_mem _ h2)

theorem mem_assocInsertAll {β : Type} (A : List (Bytes × β)) :
    ∀ (m : List (Bytes × β)) (p : Bytes × β), p ∈ assocInsertAll m A → p ∈ m ∨ p ∈ A := by
  induction A with
  | nil => intro m p hp; exact Or.inl hp
  | cons a rest ih =>
    intro m p hp
    have hstep : assocInsertAll m (a :: rest) = assocInsertAll (assocInsert m a.1 a.2) rest := rfl
    rw [hstep] at hp
    rcases ih _ p hp with h | h
    · rcases mem_assocInsert m a.1 a.2 p h with h' | h'
      · right
        rw [h']
        exact List.mem_cons_self _ _
      · exact Or.inl h'
    · exact Or.inr (List.mem_cons_of_mem _ h)

/-- C9: the diagnostic (`Debug`) rendering of a fragment depends only on the
count of its sensitive values, never their keys or contents — two fragments
identical except for the contents of their equally-long sensitive-value lists
render identically — while `PutOne::execute` captures the diagnostic value
map before the sensitive values are merged (so the capture contains only
entries of `values`) and ships the union of `values` and `sensitive_values`
in the wire request. -/
theorem C9_sensitive_values_never_logged :
    (∀ (structName : Bytes) (f g : Fragment),
      f.expression = g.expression → f.names = g.names → f.values = g.values →
      f.sensitiveValues.length = g.sensitiveValues.length →
      fragmentDebug structName f = fragmentDebug structName g) ∧
    (∀ (item : Item) (c : Fragment),
      (PutOne.build item (some c)).2
        = (if !c.values.isEmpty || !c.sensitiveValues.isEmpty then some (collectMap c.values)
           else none) ∧
      (PutOne.build item (some c)).1.expressionAttributeValues
        = ((PutOne.build item (some c)).2).map (fun m => assocInsertAll m c.sensitiveValues)) ∧
    (∀ (item : Item) (c : Fragment) (m : Item),
      (PutOne.build item (some c)).2 = some m → ∀ p ∈ m, p ∈ c.values) := by
  refine ⟨?_, fun item c => ⟨rfl, rfl⟩, ?_⟩
  · intro structName f g he hn hv hl
    unfold fragmentDebug
    rw [he, hn, hv, hl]
  · intro item c m hm p hp
    by_cases hne : (!c.values.isEmpty || !c.sensitiveValues.isEmpty) = true
    · have : (PutOne.build item (some c)).2 = some (collectMap c.values) := by
        simp [PutOne.build, hne]
      rw [this] at hm
      obtain rfl : collectMap c.values = m := Option.some.inj hm
      rcases mem_assocInsertAll c.values [] p hp with h | h
      · simp at h
      · exact h
    · have : (PutOne.build item (some c)).2 = none := by
        simp only [PutOne.build]
        rw [if_neg hne]
      rw [this] at hm
      exact absurd hm (by simp)

/-- Closed witness for `C9_sensitive_values_never_logged`: two filters that
differ only in the contents of their single sensitive value render the same
debug output, and a concrete capture contains only the non-sensitive entry. -/
theorem C9_sensitive_values_never_logged_witness :
    fragmentDebug (asciiBytes "Filter")
        (Filter.sensitiveValue (Filter.value (Filter.new (asciiBytes "#a = :a AND #t = :t"))
          (asciiBytes ":a") (AttrVal.n (asciiBytes "1")))
          (asciiBytes ":t") (AttrVal.s (asciiBytes "secret")))
      = fragmentDebug (asciiBytes "Filter")
        (Filter.sensitiveValue (Filter.value (Filter.new (asciiBytes "#a = :a AND #t = :t"))
          (asciiBytes ":a") (AttrVal.n (asciiBytes "1")))
          (asciiBytes ":t") (AttrVal.s (asciiBytes "other"))) ∧
    ((asciiBytes ":flt_a", AttrVal.n (asciiBytes "1")) ∈
      (Filter.sensitiveValue (Filter.value (Filter.new (asciiBytes "#a = :a AND #t = :t"))
          (asciiBytes ":a") (AttrVal.n (asciiBytes "1")))
          (asciiBytes ":t") (AttrVal.s (asciiBytes "secret"))).values) := by
  constructor
  · exact C9_sensitive_values_never_logged.1 (asciiBytes "Filter") _ _ rfl rfl rfl rfl
  · exact C9_sensitive_values_never_logged.2.2 []
      (Filter.sensitiveValue (Filter.value (Filter.new (asciiBytes "#a = :a AND #t = :t"))
        (asciiBytes ":a") (AttrVal.n (asciiBytes "1")))
        (asciiBytes ":t") (AttrVal.s (asciiBytes "secret")))
      [(asciiBytes ":flt_a", AttrVal.n (asciiBytes "1"))] (by decide)
      (asciiBytes ":flt_a", AttrVal.n (asciiBytes "1")) (by decide)

section ProjectionSetExpression
/-!
`src/lib.rs`: `ENTITY_TYPE_ATTRIBUTE`, the `projections!`-path projection
generator `__private::generate_projection_expression`, and the blanket
`ProjectionSet` implementation's `projection_expression` for a single
`Projection` type (the body of its memoizing `or_insert_with` closure; the
`RwLock`/`TypeId` cache and `leak` only memoize this pure value per type).
-/

/-- Rust `ENTITY_TYPE_ATTRIBUTE = "entity_type"`. -/
def ENTITY_TYPE_ATTRIBUTE : Bytes := asciiBytes "entity_type"

/-- Rust `__private::generate_projection_expression`: `None` unless every entity's
projected-attribute *list* is non-empty; otherwise the compiled projection of
all lists flattened plus the entity-type attribute. -/
def generate_projection_expression (attributes : List (List Bytes)) : Option Projection :=
  if !(attributes.all (fun attrs => !attrs.isEmpty)) then none
  else some (Projection.new (attributes.flatten ++ [ENTITY_TYPE_ATTRIBUTE]))

/-- The blanket `impl ProjectionSet for P` projection computation: the guard
iterates over `P::PROJECTED_ATTRIBUTES` (a list of attribute-name strings)
and tests `!a.is_empty()` on each *name*, then compiles the names chained
with the entity-type attribute. -/
def blanket_projection_expression (projectedAttributes : List Bytes) : Option Projection :=
  if !(projectedAttributes.all (fun a => !a.isEmpty)) then none
  else some (Projection.new (projectedAttributes ++ [ENTITY_TYPE_ATTRIBUTE]))

end ProjectionSetExpression

/-- C1: evaluation of the two projection-expression paths at the flatten
sentinel (an empty projected-attribute list).  The `projections!` path
(`generate_projection_expression`) returns `None` whenever any member list is
empty, as the claim states; but the blanket single-projection implementation,
whose guard tests emptiness of each attribute-name string instead of the
list, lets the empty list through vacuously and produces
`Some` of a projection restricted to the `entity_type` attribute alone,
contradicting the claim, the comment inside the closure and the
`PROJECTED_ATTRIBUTES` documentation ("any aggregate that uses this
projection will return the entire item"). -/
theorem C1_blanket_empty_projection_bug :
    blanket_projection_expression []
        = some { expression := asciiBytes "entity_type", names := [] } ∧
    blanket_projection_expression [] ≠ none ∧
    (∀ pre post : List (List Bytes),
      generate_projection_expression (pre ++ [] :: post) = none) := by
  refine ⟨by decide, by decide, ?_⟩
  intro pre post
  have h : (pre ++ [] :: post).all (fun attrs => !attrs.isEmpty) = false := by
    simp [List.all_append, List.all_cons]
  unfold generate_projection_expression
  rw [h]
  rfl

section AggregateDispatch
/-!
`src/lib.rs`: `__private::get_entity_type`, the `ProjectionSet::try_from_item`
generated by the `projections!` macro (a chain of entity-type comparisons in
declared order with decode-error propagation, falling through to a logged
skip), and `Aggregate::reduce`/`merge` via `read_projection!` (unknown type
contributes nothing; errors propagate).  Per-variant decoding through the
external serde codec is a parameter (`fromItem`).
-/

/-- The errors reaching the reducer: a missing/malformed discriminator
attribute (`MissingEntityTypeError`), or a decode failure for a known entity
type, wrapped with the entity-type name (`ItemDeserializationError`). -/
inductive ReduceError where
  | missingEntityType
  | deserialization (entityType : Bytes)
deriving DecidableEq, Repr

/-- Rust `__private::get_entity_type`: the discriminator attribute must be present
and must be the string variant. -/
def get_entity_type (item : Item) : Except ReduceError Bytes :=
  match assocGet item ENTITY_TYPE_ATTRIBUTE with
  | some (AttrVal.s v) => .ok v
  | some _ => .error .missingEntityType
  | none => .error .missingEntityType

/-- One member of a `projections!` set: its static entity-type name and its
decoder (the external codec's `from_item` for that projection type). -/
structure EntityVariant (α : Type) where
  entityType : Bytes
  fromItem : Item → Except Unit α

/-- The `if entity_type == <T as Entity>::ENTITY_TYPE { ... } else ...` chain
generated by `projections!`, in declared order: a matching variant decodes
(propagating failure wrapped with the entity-type name); no match is a
logged skip (`Ok(None)`). -/
def dispatchEntityType {α : Type} (et : Bytes) (item : Item) :
    List (EntityVariant α) → Except ReduceError (Option α)
  | [] => .ok none
  | v :: rest =>
    if et = v.entityType then
      match v.fromItem item with
      | .ok parsed => .ok (some parsed)
      | .error _ => .error (.deserialization v.entityType)
    else dispatchEntityType et item rest

/-- Rust `ProjectionSet::try_from_item` as generated by `projections!`. -/
def ProjectionSet.try_from_item {α : Type} (variants : List (EntityVariant α)) (item : Item) :
    Except ReduceError (Option α) :=
  match get_entity_type item with
  | .error e => .error e
  | .ok et => dispatchEntityType et item variants

/-- Rust `Aggregate::merge` via `read_projection!`: a decoded entity is
accumulated, an unknown entity type contributes nothing, an error
propagates. -/
def Aggregate.merge {α : Type} (variants : List (EntityVariant α)) (acc : List α)
    (item : Item) : Except ReduceError (List α) :=
  match ProjectionSet.try_from_item variants item with
  | .ok (some e) => .ok (acc ++ [e])
  | .ok none => .ok acc
  | .error e => .error e

/-- Rust `Aggregate::reduce`: fold `merge` over the page. -/
def Aggregate.reduce {α : Type} (variants : List (EntityVariant α)) (acc : List α) :
    List Item → Except ReduceError (List α)
  | [] => .ok acc
  | item :: rest =>
    match Aggregate.merge variants acc item with
    | .ok acc' => Aggregate.reduce variants acc' rest
    | .error e => .error e

end AggregateDispatch

theorem dispatch_no_match {α : Type} (et : Bytes) (item : Item) :
    ∀ variants : List (EntityVariant α), (∀ v ∈ variants, v.entityType ≠ et) →
      dispatchEntityType et item variants = .ok none := by
  intro variants
  induction variants with
  | nil => intro _; rfl
  | cons v rest ih =>
    intro h
    have hne : ¬(et = v.entityType) :=
      fun he => h v (List.mem_cons_self _ _) he.symm
    rw [show dispatchEntityType et item (v :: rest)
        = if et = v.entityType then
            (match v.fromItem item with
             | .ok parsed => .ok (some parsed)
             | .error _ => .error (.deserialization v.entityType))
          else dispatchEntityType et item rest from rfl,
      if_neg hne]
    exact ih (fun w hw => h w (List.mem_cons_of_mem _ hw))

/-- A concrete known entity type `alpha`, decoding the `val` attribute. -/
def alphaVariant : EntityVariant Bytes :=
  { entityType := asciiBytes "alpha"
    fromItem := fun item =>
      match assocGet item (asciiBytes "val") with
      | some (AttrVal.s v) => .ok v
      | _ => .error () }

/-- A concrete known entity type `beta`, decoding the `val` attribute. -/
def betaVariant : EntityVariant Bytes :=
  { entityType := asciiBytes "beta"
    fromItem := fun item =>
      match assocGet item (asciiBytes "val") with
      | some (AttrVal.s v) => .ok v
      | _ => .error () }

/-- An item of the known entity type `alpha`. -/
def itemAlpha : Item :=
  [(ENTITY_TYPE_ATTRIBUTE, AttrVal.s (asciiBytes "alpha")),
   (asciiBytes "val", AttrVal.s (asciiBytes "a1"))]

/-- An item of the known entity type `beta`. -/
def itemBeta : Item :=
  [(ENTITY_TYPE_ATTRIBUTE, AttrVal.s (asciiBytes "beta")),
   (asciiBytes "val", AttrVal.s (asciiBytes "b1"))]

/-- An item whose discriminator holds the unrecognized value `gamma`. -/
def itemUnknown : Item :=
  [(ENTITY_TYPE_ATTRIBUTE, AttrVal.s (asciiBytes "gamma")),
   (asciiBytes "val", AttrVal.s (asciiBytes "g1"))]

/-- C5: `try_from_item` returns `Ok(None)` (a skip, not an error) on a string
discriminator matching no known entity type; a missing discriminator
attribute, or one holding a non-string value, is the hard
`MissingEntityTypeError`; consequently reducing a page of two known-type
items and one unknown-type item yields exactly the two decoded results and
no error. -/
theorem C5_unknown_discriminator_skipped :
    (∀ (α : Type) (variants : List (EntityVariant α)) (item : Item) (s : Bytes),
      assocGet item ENTITY_TYPE_ATTRIBUTE = some (AttrVal.s s) →
      (∀ v ∈ variants, v.entityType ≠ s) →
      ProjectionSet.try_from_item variants item = .ok none) ∧
    (∀ (α : Type) (variants : List (EntityVariant α)) (item : Item),
      assocGet item ENTITY_TYPE_ATTRIBUTE = none →
      ProjectionSet.try_from_item variants item = .error .missingEntityType) ∧
    (∀ (α : Type) (variants : List (EntityVariant α)) (item : Item) (w : AttrVal),
      assocGet item ENTITY_TYPE_ATTRIBUTE = some w → (∀ b, w ≠ AttrVal.s b) →
      ProjectionSet.try_from_item variants item = .error .missingEntityType) ∧
    Aggregate.reduce [alphaVariant, betaVariant] [] [itemAlpha, itemUnknown, itemBeta]
      = .ok [asciiBytes "a1", asciiBytes "b1"] := by
  refine ⟨?_, ?_, ?_, by rfl⟩
  · intro α variants item s h hvs
    have hget : get_entity_type item = .ok s := by
      unfold get_entity_type
      rw [h]
    unfold ProjectionSet.try_from_item
    rw [hget]
    exact dispatch_no_match s item variants hvs
  · intro α variants item h
    have hget : get_entity_type item = .error .missingEntityType := by
      unfold get_entity_type
      rw [h]
    unfold ProjectionSet.try_from_item
    rw [hget]
  · intro α variants item w h hw
    have hget : get_entity_type item = .error .missingEntityType := by
      unfold get_entity_type
      rw [h]
      cases w with
      | s b => exact absurd rfl (hw b)
      | n v => rfl
      | bool b => rfl
      | null => rfl
    unfold ProjectionSet.try_from_item
    rw [hget]

/-- Closed witness for `C5_unknown_discriminator_skipped`: the unknown-type
item is skipped, an empty item is a missing-discriminator error, and a
non-string discriminator is the same error. -/
theorem C5_unknown_discriminator_skipped_witness :
    ProjectionSet.try_from_item [alphaVariant, betaVariant] itemUnknown
      = .ok (none : Option Bytes) ∧
    ProjectionSet.try_from_item ([] : List (EntityVariant Bytes)) ([] : Item)
      = .error .missingEntityType ∧
    ProjectionSet.try_from_item [alphaVariant] [(ENTITY_TYPE_ATTRIBUTE, AttrVal.null)]
      = .error .missingEntityType := by
  refine ⟨?_, ?_, ?_⟩
  · exact C5_unknown_discriminator_skipped.1 Bytes [alphaVariant, betaVariant] itemUnknown
      (asciiBytes "gamma") (by decide)
      (by
        intro v hv
        rcases List.mem_cons.mp hv with h | h
        · rw [h]; decide
        · rcases List.mem_cons.mp h with h2 | h2
          · rw [h2]; decide
          · simp at h2)
  · exact C5_unknown_discriminator_skipped.2.1 Bytes [] [] rfl
  · exact C5_unknown_discriminator_skipped.2.2.1 Bytes [alphaVariant]
      [(ENTITY_TYPE_ATTRIBUTE, AttrVal.null)] AttrVal.null (by decide)
      (fun b h => AttrVal.noConfusion h)

section KeysModel
/-!
`modyne/src/keys.rs`: key structs and their serde serialization.  Each key
struct serializes its fields in declaration order under its `#[serde(rename)]`
attribute names; `FullKey` flattens `indexes` first and `primary` second into
one item map, so a later binding for the same attribute name overwrites an
earlier one (`HashMap` insertion), which is how an LSI's table-partition-key
placeholder is overridden by the primary key's hash value.
-/

/-- Rust `keys::Primary` (hash `PK`, range `SK`). -/
structure PrimaryKey where
  hash : Bytes
  range : Bytes
deriving DecidableEq, Repr

/-- Serialization of `keys::Primary`: `PK` then `SK`. -/
def PrimaryKey.entries (p : PrimaryKey) : List (Bytes × AttrVal) :=
  [(asciiBytes "PK", AttrVal.s p.hash), (asciiBytes "SK", AttrVal.s p.range)]

/-- Rust `keys::Gsi5` (hash `GSI5PK`, range `GSI5SK`). -/
structure Gsi5Key where
  hash : Bytes
  range : Bytes
deriving DecidableEq, Repr

/-- Serialization of `keys::Gsi5`. -/
def Gsi5Key.entries (k : Gsi5Key) : List (Bytes × AttrVal) :=
  [(asciiBytes "GSI5PK", AttrVal.s k.hash), (asciiBytes "GSI5SK", AttrVal.s k.range)]

/-- Rust `keys::Lsi3`: the hash field is serialized under the *table's* partition
attribute name `PK`; the range under `LSI3SK`. -/
structure Lsi3Key where
  hash : Bytes
  range : Bytes
deriving DecidableEq, Repr

/-- Serialization of `keys::Lsi3`. -/
def Lsi3Key.entries (k : Lsi3Key) : List (Bytes × AttrVal) :=
  [(asciiBytes "PK", AttrVal.s k.hash), (asciiBytes "LSI3SK", AttrVal.s k.range)]

/-- Rust `FullKey::into_key`: serialize the index keys' flattened entries first,
then the primary key's, into one map where insertion overwrites an existing
attribute name. -/
def FullKey.into_key (indexEntries : List (Bytes × AttrVal)) (primary : PrimaryKey) : Item :=
  assocInsertAll [] (indexEntries ++ primary.entries)

end KeysModel

theorem assocGet_insert_self {β : Type} (m : List (Bytes × β)) (k : Bytes) (v : β) :
    assocGet (assocInsert m k v) k = some v := by
  induction m with
  | nil => simp [assocInsert, assocGet, List.find?]
  | cons a rest ih =>
    obtain ⟨a1, a2⟩ := a
    by_cases hk : a1 = k
    · subst hk
      simp [assocInsert, assocGet, List.find?]
    · rw [show assocInsert ((a1, a2) :: rest) k v = (a1, a2) :: assocInsert rest k v by
        simp [assocInsert, hk]]
      simp only [assocGet, List.find?, beq_eq_false_iff_ne.mpr hk] at *
      exact ih

/-- C4: serializing a `FullKey` always yields the primary key's hash value
under the table's partition attribute, for *any* index-key entries serialized
before it — in particular, for the `(Gsi5, Lsi3)` composite of
`test_composite_key`, whatever value the LSI key's hash field was
constructed with, the primary hash wins while all other attributes keep
their own values. -/
theorem C4_primary_hash_overwrites_lsi :
    (∀ (indexEntries : List (Bytes × AttrVal)) (p : PrimaryKey),
      assocGet (FullKey.into_key indexEntries p) (asciiBytes "PK")
        = some (AttrVal.s p.hash)) ∧
    (∀ (ph pr gh gr lh lr : Bytes),
      let m := FullKey.into_key
        (Gsi5Key.entries ⟨gh, gr⟩ ++ Lsi3Key.entries ⟨lh, lr⟩) ⟨ph, pr⟩
      assocGet m (asciiBytes "PK") = some (AttrVal.s ph) ∧
      assocGet m (asciiBytes "SK") = some (AttrVal.s pr) ∧
      assocGet m (asciiBytes "GSI5PK") = some (AttrVal.s gh) ∧
      assocGet m (asciiBytes "GSI5SK") = some (AttrVal.s gr) ∧
      assocGet m (asciiBytes "LSI3SK") = some (AttrVal.s lr)) := by
  have hPK : ∀ (indexEntries : List (Bytes × AttrVal)) (p : PrimaryKey),
      assocGet (FullKey.into_key indexEntries p) (asciiBytes "PK")
        = some (AttrVal.s p.hash) := by
    intro idx p
    have hsplit : FullKey.into_key idx p
        = assocInsert
            (assocInsert (assocInsertAll [] idx) (asciiBytes "PK") (AttrVal.s p.hash))
            (asciiBytes "SK") (AttrVal.s p.range) := by
      unfold FullKey.into_key PrimaryKey.entries
      rw [show idx ++ [(asciiBytes "PK", AttrVal.s p.hash), (asciiBytes "SK", AttrVal.s p.range)]
          = (idx ++ [(asciiBytes "PK", AttrVal.s p.hash)]) ++ [(asciiBytes "SK", AttrVal.s p.range)]
        by simp]
      unfold assocInsertAll
      rw [List.foldl_append, List.foldl_append]
      rfl
    rw [hsplit, assocGet_insert_ne _ _ _ _ (by decide), assocGet_insert_self]
  refine ⟨hPK, ?_⟩
  intro ph pr gh gr lh lr
  refine ⟨hPK _ _, ?_, ?_, ?_, ?_⟩ <;>
    · show assocGet (assocInsertAll [] _) _ = _
      unfold assocInsertAll
      simp only [List.foldl_cons, List.foldl_nil, Gsi5Key.entries, Lsi3Key.entries,
        PrimaryKey.entries, List.append_assoc, List.cons_append, List.nil_append]
      repeat first
        | rw [assocGet_insert_self]
        | rw [assocGet_insert_ne _ _ _ _ (by decide)]

section KeyConditionModel
/-!
`modyne/src/keys.rs`: `KeyDefinition` and its accessors; `src/expr.rs`:
`KeyCondition` and its sort-key predicate methods, each of which first runs
`ensure_range_key` (an assertion that panics at build time when the bound key
definition declares no range key).  A Rust panic is modeled as `Except.error`
carrying the panic message.
-/

/-- Rust `keys::PrimaryKeyDefinition`. -/
structure PrimaryKeyDefinition where
  hashKey : Bytes
  rangeKey : Option Bytes
deriving DecidableEq, Repr

/-- Rust `keys::GlobalSecondaryIndexDefinition`. -/
structure GlobalSecondaryIndexDefinition where
  indexName : Bytes
  hashKey : Bytes
  rangeKey : Option Bytes
deriving DecidableEq, Repr

/-- Rust `keys::LocalSecondaryIndexDefinition` (range key always present). -/
structure LocalSecondaryIndexDefinition where
  indexName : Bytes
  hashKey : Bytes
  rangeKey : Bytes
deriving DecidableEq, Repr

/-- Rust `keys::SecondaryIndexDefinition`. -/
inductive SecondaryIndexDefinition where
  | global (d : GlobalSecondaryIndexDefinition)
  | lsi (d : LocalSecondaryIndexDefinition)
deriving DecidableEq, Repr

/-- Rust `SecondaryIndexDefinition::index_name`. -/
def SecondaryIndexDefinition.indexName : SecondaryIndexDefinition → Bytes
  | .global d => d.indexName
  | .lsi d => d.indexName

/-- Rust `SecondaryIndexDefinition::range_key`. -/
def SecondaryIndexDefinition.rangeKey : SecondaryIndexDefinition → Option Bytes
  | .global d => d.rangeKey
  | .lsi d => some d.rangeKey

/-- Rust `keys::KeyDefinition`. -/
inductive KeyDefinition where
  | primary (d : PrimaryKeyDefinition)
  | secondary (d : SecondaryIndexDefinition)
deriving DecidableEq, Repr

/-- Rust `KeyDefinition::index_name`. -/
def KeyDefinition.indexName : KeyDefinition → Option Bytes
  | .primary _ => none
  | .secondary d => some d.indexName

/-- Rust `KeyDefinition::range_key`. -/
def KeyDefinition.rangeKey : KeyDefinition → Option Bytes
  | .primary d => d.rangeKey
  | .secondary d => d.rangeKey

/-- Rust `expr::SortKeyCondition`. -/
inductive SortKeyCondition where
  | equal (v : AttrVal)
  | between (startValue endValue : AttrVal)
  | lessThan (v : AttrVal)
  | lessThanOrEqual (v : AttrVal)
  | greaterThan (v : AttrVal)
  | greaterThanOrEqual (v : AttrVal)
  | beginsWith (s : Bytes)
deriving DecidableEq, Repr

/-- Rust `expr::KeyCondition` (its `K` type parameter's static `DEFINITION` is
passed explicitly as `defn` to the methods below). -/
structure KeyCondition where
  partitionKey : AttrVal
  sortKey : Option SortKeyCondition
deriving DecidableEq, Repr

/-- Rust `KeyCondition::ensure_range_key`: panic (with the index-specific message)
when the key definition has no range key. -/
def ensure_range_key (defn : KeyDefinition) : Except Bytes Unit :=
  match defn.indexName with
  | some idx =>
    if defn.rangeKey.isSome then .ok ()
    else .error (asciiBytes "Key on index `" ++ idx ++ asciiBytes "` does not have a range key")
  | none =>
    if defn.rangeKey.isSome then .ok ()
    else .error (asciiBytes "Primary key does not have a range key")

/-- Rust `KeyCondition::in_partition`. -/
def KeyCondition.in_partition (partition : AttrVal) : KeyCondition :=
  { partitionKey := partition, sortKey := none }

/-- Rust `KeyCondition::specific_item`. -/
def KeyCondition.specific_item (defn : KeyDefinition) (kc : KeyCondition) (sort : AttrVal) :
    Except Bytes KeyCondition :=
  match ensure_range_key defn with
  | .error e => .error e
  | .ok _ => .ok { kc with sortKey := some (.equal sort) }

/-- Rust `KeyCondition::between`. -/
def KeyCondition.sort_between (defn : KeyDefinition) (kc : KeyCondition)
    (startValue endValue : AttrVal) : Except Bytes KeyCondition :=
  match ensure_range_key defn with
  | .error e => .error e
  | .ok _ => .ok { kc with sortKey := some (.between startValue endValue) }

/-- Rust `KeyCondition::less_than`. -/
def KeyCondition.less_than (defn : KeyDefinition) (kc : KeyCondition) (sort : AttrVal) :
    Except Bytes KeyCondition :=
  match ensure_range_key defn with
  | .error e => .error e
  | .ok _ => .ok { kc with sortKey := some (.lessThan sort) }

/-- Rust `KeyCondition::less_than_or_equal`. -/
def KeyCondition.less_than_or_equal (defn : KeyDefinition) (kc : KeyCondition) (sort : AttrVal) :
    Except Bytes KeyCondition :=
  match ensure_range_key defn with
  | .error e => .error e
  | .ok _ => .ok { kc with sortKey := some (.lessThanOrEqual sort) }

/-- Rust `KeyCondition::greater_than`. -/
def KeyCondition.greater_than (defn : KeyDefinition) (kc : KeyCondition) (sort : AttrVal) :
    Except Bytes KeyCondition :=
  match ensure_range_key defn with
  | .error e => .error e
  | .ok _ => .ok { kc with sortKey := some (.greaterThan sort) }

/-- Rust `KeyCondition::greater_than_or_equal`. -/
def KeyCondition.greater_than_or_equal (defn : KeyDefinition) (kc : KeyCondition)
    (sort : AttrVal) : Except Bytes KeyCondition :=
  match ensure_range_key defn with
  | .error e => .error e
  | .ok _ => .ok { kc with sortKey := some (.greaterThanOrEqual sort) }

/-- Rust `KeyCondition::begins_with`. -/
def KeyCondition.begins_with (defn : KeyDefinition) (kc : KeyCondition) (sort : Bytes) :
    Except Bytes KeyCondition :=
  match ensure_range_key defn with
  | .error e => .error e
  | .ok _ => .ok { kc with sortKey := some (.beginsWith sort) }

end KeyConditionModel

/-- C6: every sort-key predicate of `KeyCondition` panics at build time
exactly when the bound key definition declares no range key — `isOk` of each
of the seven predicates equals `isSome` of the definition's range key, so on
a range-keyed definition none of them panics on that account. -/
theorem C6_sort_key_predicates_panic_iff_no_range_key :
    ∀ (defn : KeyDefinition) (kc : KeyCondition) (v w : AttrVal) (s : Bytes),
      (KeyCondition.specific_item defn kc v).isOk = defn.rangeKey.isSome ∧
      (KeyCondition.sort_between defn kc v w).isOk = defn.rangeKey.isSome ∧
      (KeyCondition.less_than defn kc v).isOk = defn.rangeKey.isSome ∧
      (KeyCondition.less_than_or_equal defn kc v).isOk = defn.rangeKey.isSome ∧
      (KeyCondition.greater_than defn kc v).isOk = defn.rangeKey.isSome ∧
      (KeyCondition.greater_than_or_equal defn kc v).isOk = defn.rangeKey.isSome ∧
      (KeyCondition.begins_with defn kc s).isOk = defn.rangeKey.isSome := by
  have hranged : ∀ defn : KeyDefinition, (ensure_range_key defn).isOk = defn.rangeKey.isSome := by
    intro defn
    unfold ensure_range_key
    cases h : defn.indexName <;> cases hr : defn.rangeKey <;>
      simp [hr, Option.isSome, Except.isOk, Except.toBool]
  intro defn kc v w s
  refine ⟨?_, ?_, ?_, ?_, ?_, ?_, ?_⟩ <;>
    · first
      | unfold KeyCondition.specific_item
      | unfold KeyCondition.sort_between
      | unfold KeyCondition.less_than
      | unfold KeyCondition.less_than_or_equal
      | unfold KeyCondition.greater_than
      | unfold KeyCondition.greater_than_or_equal
      | unfold KeyCondition.begins_with
      rw [← hranged defn]
      cases ensure_range_key defn <;> simp [Except.isOk, Except.toBool]

section ErrorModel
/-!
`src/error.rs`: `Error::is_conditional_check_failed_exception` over the
wrapped `InnerError`.  The AWS SDK operation-error types are external
collaborators; they are modeled with the variants this predicate inspects
(`ConditionalCheckFailedException` on the put/delete/update item errors;
`TransactionCanceledException` with its cancellation-reason list on the
transact-write error) plus a catch-all for every other variant.  `SdkError`
keeps its service-error vs transport distinction.
-/

/-- A cancellation reason of a `TransactionCanceledException` (`code` is an
optional string). -/
structure CancellationReason where
  code : Option Bytes
deriving DecidableEq, Repr

/-- Model of the put-item / delete-item / update-item operation errors: the
conditional-check-failed variant versus everything else. -/
inductive ItemWriteError where
  | conditionalCheckFailedException
  | otherError
deriving DecidableEq, Repr

/-- Rust `is_conditional_check_failed_exception` on an operation error. -/
def ItemWriteError.isCCFE : ItemWriteError → Bool
  | .conditionalCheckFailedException => true
  | .otherError => false

/-- Model of `TransactWriteItemsError`. -/
inductive TransactWriteItemsError where
  | transactionCanceledException (cancellationReasons : Option (List CancellationReason))
  | otherError
deriving DecidableEq, Repr

/-- Model of `SdkError<E>`: a service error or any transport-level failure. -/
inductive SdkError (E : Type) where
  | serviceError (e : E)
  | otherFailure
deriving DecidableEq, Repr

/-- Model of `InnerError` (`GetItem`, `Query`, `Scan` and `TransactGetItems`
carry errors this predicate never inspects, modeled with a `Unit` payload). -/
inductive InnerError where
  | getItem (e : SdkError Unit)
  | query (e : SdkError Unit)
  | scan (e : SdkError Unit)
  | putItem (e : SdkError ItemWriteError)
  | deleteItem (e : SdkError ItemWriteError)
  | updateItem (e : SdkError ItemWriteError)
  | transactGetItems (e : SdkError Unit)
  | transactWriteItems (e : SdkError TransactWriteItemsError)
  | itemDeserialization
  | missingEntityType
deriving DecidableEq, Repr

/-- The cancellation-reason code for a failed condition. -/
def conditionalCheckFailedCode : Bytes := asciiBytes "ConditionalCheckFailed"

/-- Rust `Error::is_conditional_check_failed_exception`. -/
def Error.is_conditional_check_failed_exception : InnerError → Bool
  | .putItem (.serviceError e) => e.isCCFE
  | .deleteItem (.serviceError e) => e.isCCFE
  | .updateItem (.serviceError e) => e.isCCFE
  | .transactWriteItems (.serviceError (.transactionCanceledException reasons)) =>
    (match reasons with
     | some rs => rs.any (fun r => r.code == some conditionalCheckFailedCode)
     | none => false)
  | _ => false

end ErrorModel

/-- The claim's characterization, written as a predicate: a put-item,
delete-item or update-item service error that is a conditional-check-failed
exception, or a transact-write-items service error that is a
transaction-cancelled exception with at least one cancellation reason whose
code is `"ConditionalCheckFailed"`. -/
def isConditionalCheckFailedSpec (e : InnerError) : Prop :=
  e = .putItem (.serviceError .conditionalCheckFailedException) ∨
  e = .deleteItem (.serviceError .conditionalCheckFailedException) ∨
  e = .updateItem (.serviceError .conditionalCheckFailedException) ∨
  ∃ rs r, e = .transactWriteItems (.serviceError (.transactionCanceledException (some rs))) ∧
    r ∈ rs ∧ r.code = some conditionalCheckFailedCode

/-- C7: `is_conditional_check_failed_exception` returns `true` exactly on the
errors the claim describes, and `false` on every other wrapped error. -/
theorem C7_conditional_check_failed_classification :
    ∀ e : InnerError,
      Error.is_conditional_check_failed_exception e = true ↔ isConditionalCheckFailedSpec e := by
  intro e
  unfold isConditionalCheckFailedSpec
  cases e with
  | putItem se =>
    cases se with
    | serviceError w => cases w <;> simp [Error.is_conditional_check_failed_exception,
        ItemWriteError.isCCFE]
    | otherFailure => simp [Error.is_conditional_check_failed_exception]
  | deleteItem se =>
    cases se with
    | serviceError w => cases w <;> simp [Error.is_conditional_check_failed_exception,
        ItemWriteError.isCCFE]
    | otherFailure => simp [Error.is_conditional_check_failed_exception]
  | updateItem se =>
    cases se with
    | serviceError w => cases w <;> simp [Error.is_conditional_check_failed_exception,
        ItemWriteError.isCCFE]
    | otherFailure => simp [Error.is_conditional_check_failed_exception]
  | transactWriteItems se =>
    cases se with
    | serviceError w =>
      cases w with
      | transactionCanceledException reasons =>
        cases reasons with
        | none => simp [Error.is_conditional_check_failed_exception]
        | some rs =>
          simp only [Error.is_conditional_check_failed_exception, List.any_eq_true,
            beq_iff_eq]
          constructor
          · rintro ⟨r, hr, hc⟩
            exact Or.inr (Or.inr (Or.inr ⟨rs, r, rfl, hr, hc⟩))
          · rintro (h | h | h | ⟨rs', r, heq, hr, hc⟩) <;> try exact absurd h (by simp)
            obtain rfl : rs = rs' := by
              injection heq with h1
              injection h1 with h2
              injection h2 with h3
              exact (Option.some.inj h3)
            exact ⟨r, hr, hc⟩
      | otherError => simp [Error.is_conditional_check_failed_exception]
    | otherFailure => simp [Error.is_conditional_check_failed_exception]
  | getItem se => simp [Error.is_conditional_check_failed_exception]
  | query se => simp [Error.is_conditional_check_failed_exception]
  | scan se => simp [Error.is_conditional_check_failed_exception]
  | transactGetItems se => simp [Error.is_conditional_check_failed_exception]
  | itemDeserialization => simp [Error.is_conditional_check_failed_exception]
  | missingEntityType => simp [Error.is_conditional_check_failed_exception]

section QueryScanLimit
/-!
`src/model.rs`: `Query::limit` and `Scan::limit` take a `u32`; a value above
`i32::MAX` clears the limit (unbounded), otherwise it is stored as
`Some(limit as i32)`.  Only the limit-relevant builder state is modeled (the
other builder fields do not interact with `limit`); `u32` values are natural
numbers below `2^32` and the stored `i32` is the same number (it is at most
`i32::MAX`).
-/

/-- Rust `i32::MAX`. -/
def I32_MAX : Nat := 2147483647

/-- The limit-relevant state of the `Query` builder. -/
structure QueryBuilder where
  limit : Option Nat
deriving DecidableEq, Repr

/-- Rust `Query::limit`. -/
def QueryBuilder.setLimit (q : QueryBuilder) (lim : Nat) : QueryBuilder :=
  if lim > I32_MAX then { q with limit := none } else { q with limit := some lim }

/-- The limit-relevant state of the `Scan` builder. -/
structure ScanBuilder where
  limit : Option Nat
deriving DecidableEq, Repr

/-- Rust `Scan::limit`. -/
def ScanBuilder.setLimit (q : ScanBuilder) (lim : Nat) : ScanBuilder :=
  if lim > I32_MAX then { q with limit := none } else { q with limit := some lim }

end QueryScanLimit

/-- C8: for every unsigned 32-bit value, `Query::limit` and `Scan::limit`
leave the builder's limit unset (unbounded) when the value exceeds
`2^31 - 1`, and store exactly the requested value otherwise; neither raises
an error. -/
theorem C8_limit_overflow_drops_limit :
    ∀ (q : QueryBuilder) (sc : ScanBuilder) (lim : Nat), lim < 2 ^ 32 →
      (q.setLimit lim).limit = (if 2 ^ 31 - 1 < lim then none else some lim) ∧
      (sc.setLimit lim).limit = (if 2 ^ 31 - 1 < lim then none else some lim) := by
  intro q sc lim _
  have h : I32_MAX = 2 ^ 31 - 1 := by decide
  unfold QueryBuilder.setLimit ScanBuilder.setLimit
  rw [h]
  by_cases hc : 2 ^ 31 - 1 < lim
  · rw [if_pos hc, if_pos hc, if_pos hc]
    exact ⟨rfl, rfl⟩
  · rw [if_neg hc, if_neg hc, if_neg hc]
    exact ⟨rfl, rfl⟩

/-- Closed witness for `C8_limit_overflow_drops_limit`: `2^31` drops the
limit, `2^31 - 1` is kept exactly. -/
theorem C8_limit_overflow_drops_limit_witness :
    (QueryBuilder.setLimit ⟨some 10⟩ 2147483648).limit = none ∧
    (ScanBuilder.setLimit ⟨none⟩ 2147483647).limit = some 2147483647 := by
  constructor
  · have h := (C8_limit_overflow_drops_limit ⟨some 10⟩ ⟨none⟩ 2147483648 (by decide)).1
    rw [h]
    decide
  · have h := (C8_limit_overflow_drops_limit ⟨some 10⟩ ⟨none⟩ 2147483647 (by decide)).2
    rw [h]
    decide
